import Mathlib

/-!
Verification development for the secret-manager controller core.

The definitions below are a shallow embedding of the Go sources:
the base64 std encoding used by `getSecret`, the association-map view of
Go maps, the controller merge engine (`getSecret` in
pkg/controller/externalsecret/controller.go), the reconcile gate
(`shouldSchedule` / `skipSync`), the syncer (`externalSecretSyncer.sync`),
the scheduler (pkg/internal/scheduler), the store factory dispatch
(store/base `Default.New`) and the AWS backend clients
(store/aws `SecretsManagerStore` / `SecureSystemsManagerStore`).

Bytes are modelled as `List Nat` with values below 256; time instants and
durations are modelled in nanoseconds as `Nat`, matching Go `time.Duration`.
External collaborators (the kube client, the AWS SDK calls, json.Unmarshal,
the mergo template overlay) appear as explicit function parameters, the same
way the tests of the repository inject mocks for them.
-/

namespace SecretManager

/-- Bytes as produced by Go byte slices: each entry is below 256. -/
abbrev Bytes := List Nat

/-- All entries of a byte list are in byte range, as for a Go byte slice. -/
def bytesOk (bs : Bytes) : Prop := ∀ b ∈ bs, b < 256

/-- Association-list view of a Go `map[string]T`: lookup by key. -/
def lookupA {α : Type} : List (String × α) → String → Option α
  | [], _ => none
  | (k, v) :: rest, key => if k = key then some v else lookupA rest key

/-- Association-list view of Go map assignment `m[k] = v`: replace the
binding for `k` when present, else append it. -/
def insertA {α : Type} : List (String × α) → String → α → List (String × α)
  | [], key, v => [(key, v)]
  | (k, w) :: rest, key, v =>
    if k = key then (k, v) :: rest else (k, w) :: insertA rest key v

/-- Apply a function to every value of an association map, as the final
encoding loop of `getSecret` does to the accumulated Go map. -/
def mapValuesA {α β : Type} (f : α → β) : List (String × α) → List (String × β)
  | [] => []
  | (k, v) :: rest => (k, f v) :: mapValuesA f rest

/-! ## Base64 standard encoding

Shallow embedding of Go `encoding/base64` StdEncoding as used by the
final loop of `getSecret`: character codes of the standard alphabet,
with `=` (code 61) padding. -/

/-- Character code of the standard base64 alphabet at index `s` (s < 64). -/
def encChar (s : Nat) : Nat :=
  if s < 26 then 65 + s
  else if s < 52 then 71 + s
  else if s < 62 then s - 4
  else if s = 62 then 43
  else 47

/-- Inverse of the standard base64 alphabet: character code to sextet. -/
def decChar (c : Nat) : Option Nat :=
  if 65 ≤ c ∧ c ≤ 90 then some (c - 65)
  else if 97 ≤ c ∧ c ≤ 122 then some (c - 71)
  else if 48 ≤ c ∧ c ≤ 57 then some (c + 4)
  else if c = 43 then some 62
  else if c = 47 then some 63
  else none

/-- Go base64 StdEncoding encode: three input bytes become four alphabet
characters; a final group of one or two bytes is padded with `=` (61). -/
def b64encode : Bytes → List Nat
  | [] => []
  | [b0] => [encChar (b0 / 4), encChar (b0 % 4 * 16), 61, 61]
  | [b0, b1] => [encChar (b0 / 4), encChar (b0 % 4 * 16 + b1 / 16),
                 encChar (b1 % 16 * 4), 61]
  | b0 :: b1 :: b2 :: rest =>
    encChar (b0 / 4) :: encChar (b0 % 4 * 16 + b1 / 16) ::
    encChar (b1 % 16 * 4 + b2 / 64) :: encChar (b2 % 64) :: b64encode rest

/-- Go base64 StdEncoding decode: four characters become three bytes, with
`=` padding in the final group producing one or two bytes. -/
def b64decode : List Nat → Option Bytes
  | [] => some []
  | c0 :: c1 :: c2 :: c3 :: rest =>
    match decChar c0, decChar c1 with
    | some s0, some s1 =>
      if c2 = 61 then
        if c3 = 61 ∧ rest = [] then some [s0 * 4 + s1 / 16] else none
      else
        match decChar c2 with
        | some s2 =>
          if c3 = 61 then
            if rest = [] then some [s0 * 4 + s1 / 16, s1 % 16 * 16 + s2 / 4]
            else none
          else
            match decChar c3 with
            | some s3 =>
              match b64decode rest with
              | some bs =>
                some ((s0 * 4 + s1 / 16) :: (s1 % 16 * 16 + s2 / 4) ::
                      (s2 % 4 * 64 + s3) :: bs)
              | none => none
            | none => none
        | none => none
    | _, _ => none
  | _ => none

/-! ## Data model

Modelled from the spec: the ExternalSecret API types (RemoteReference,
the data/dataFrom entries, status) are not under src/, only their users
are; the spec describes `remoteRef:{path|name, property?, version?}`,
`data:[{secretKey, remoteRef}]`, `dataFrom:[remoteRef]`,
`refreshInterval?` and `status:{conditions, nextSync}`. -/

/-- Modelled from the spec: a RemoteReference, a pointer to one secret
value or JSON object inside a backend: path identifier, optional JSON
property, optional version (the ExternalSecret API types file is not in
src/; field use matches the aws store code and the controller). -/
structure RemoteRef where
  path : String
  property : Option String := none
  version : Option String := none
deriving DecidableEq

/-- Modelled from the spec: one `data` entry of a SyncRequest:
an explicit target key plus a remote reference. -/
structure DataEntry where
  secretKey : String
  remoteRef : RemoteRef
deriving DecidableEq

/-- A backend client capability, as the `store.Client` interface:
fetch one value, or a flat key-to-bytes map, for a remote reference. -/
structure Client where
  getSecret : RemoteRef → Except String Bytes
  getSecretMap : RemoteRef → Except String (List (String × Bytes))

/-- Go duration in nanoseconds making up one second. -/
def nanosPerSecond : Nat := 1000000000

/-- Ready condition recorded on the ExternalSecret status, as
smmeta.Available / smmeta.Unavailable with its message. -/
inductive SMCondition where
  | available : SMCondition
  | unavailable : String → SMCondition
deriving DecidableEq

/-- Modelled from the spec: ExternalSecret mutable status
`{conditions, nextSync}`; nextSync is a timestamp in nanoseconds. -/
structure ESStatus where
  nextSync : Option Nat := none
  condition : Option SMCondition := none
deriving DecidableEq

/-- Modelled from the spec: the declarative part of a SyncRequest:
store reference, nullable refresh interval (nanoseconds, as Go
time.Duration), ordered data and dataFrom lists, optional template. -/
structure ESSpec where
  storeRefName : String := ""
  storeKind : String := ""
  refreshInterval : Option Nat := none
  data : List DataEntry := []
  dataFrom : List RemoteRef := []
  template : Option Bytes := none

/-- Modelled from the spec: an ExternalSecret entity: identity
(namespace, name), spec and mutable status. -/
structure ExternalSecret where
  nspace : String := ""
  name : String := ""
  spec : ESSpec := {}
  status : ESStatus := {}

/-! ## Merge engine: controller.go getSecret -/

/-- Modelled from the spec: `merge.Merge` (pkg/util/merge is not under
src/) combines two maps; on key collision the keys of the second map
overwrite those of the first, as dataFrom entries merged later do. -/
def mergeMap (dst src : List (String × Bytes)) : List (String × Bytes) :=
  src.foldl (fun acc kv => insertA acc kv.1 kv.2) dst

/-- First loop of controller.go getSecret: fetch each dataFrom map in
declared order and merge it into the accumulator, aborting with a
wrapped error on the first failed GetSecretMap call. -/
def fetchDataFrom (c : Client) : List RemoteRef → List (String × Bytes) →
    Except String (List (String × Bytes))
  | [], acc => .ok acc
  | r :: rest, acc =>
    match c.getSecretMap r with
    | .error e => .error ("path " ++ r.path ++ ": " ++ e)
    | .ok m => fetchDataFrom c rest (mergeMap acc m)

/-- Second loop of controller.go getSecret: fetch each data entry in
declared order and assign it under its secretKey, overwriting any prior
binding, aborting with a wrapped error on the first failed GetSecret
call. -/
def fetchData (c : Client) : List DataEntry → List (String × Bytes) →
    Except String (List (String × Bytes))
  | [], acc => .ok acc
  | e :: rest, acc =>
    match c.getSecret e.remoteRef with
    | .error err => .error ("path " ++ e.remoteRef.path ++ ": " ++ err)
    | .ok v => fetchData c rest (insertA acc e.secretKey v)

/-- controller.go getSecret before its final encoding loop: dataFrom
maps merged in order, then data entries assigned over them. -/
def getSecretRaw (c : Client) (es : ExternalSecret) :
    Except String (List (String × Bytes)) :=
  match fetchDataFrom c es.spec.dataFrom [] with
  | .error e => .error e
  | .ok acc => fetchData c es.spec.data acc

/-- controller.go getSecret: build the merged payload from dataFrom and
data, then base64-encode every value of the accumulated map. -/
def getSecret (c : Client) (es : ExternalSecret) :
    Except String (List (String × Bytes)) :=
  match getSecretRaw c es with
  | .error e => .error e
  | .ok acc => .ok (mapValuesA b64encode acc)

/-! ## Reconciliation driver: controller.go -/

/-- controller.go shouldSchedule: the ExternalSecret is registered with
the scheduler only when RefreshInterval is non-nil and at least 60
seconds. -/
def shouldSchedule (es : ExternalSecret) : Bool :=
  match es.spec.refreshInterval with
  | some i => 60 * nanosPerSecond ≤ i
  | none => false

/-- controller.go skipSync: the sync is skipped when RefreshInterval is
non-nil, exactly zero seconds, and NextSync is already set. -/
def skipSync (es : ExternalSecret) : Bool :=
  match es.spec.refreshInterval, es.status.nextSync with
  | some i, some _ => i = 0
  | _, _ => false

/-- Start of externalSecretSyncer.sync: when RefreshInterval is set,
NextSync becomes the Unix epoch for a zero interval and now plus the
interval otherwise; a nil interval leaves NextSync unchanged. -/
def computeNextSync (now : Nat) (es : ExternalSecret) : Option Nat :=
  match es.spec.refreshInterval with
  | some i => some (if i = 0 then 0 else now + i)
  | none => es.status.nextSync

/-- External collaborators of one sync cycle, injected the way the
tests of the repository inject mocks: the current time, the result of
the getStore lookup, the store factory, and the mergo/json template
overlay used by templateSecret. -/
structure SyncEnv where
  now : Nat
  getStore : Except String Unit
  newClient : Except String Client
  applyTemplate : Bytes → List (String × Bytes) → Except String (List (String × Bytes))

/-- Body of the CreateOrUpdate mutate function in
externalSecretSyncer.sync: resolve the store, build the client, fetch
and merge the payload, then apply the optional template; each failure
is wrapped with the matching error string of controller.go. -/
def syncBody (env : SyncEnv) (es : ExternalSecret) :
    Except String (List (String × Bytes)) :=
  match env.getStore with
  | .error e => .error ("cannot get store reference: " ++ e)
  | .ok _ =>
    match env.newClient with
    | .error e => .error ("cannot setup store client: " ++ e)
    | .ok c =>
      match getSecret c es with
      | .error e => .error ("cannot get ExternalSecret data from store: " ++ e)
      | .ok data =>
        match es.spec.template with
        | none => .ok data
        | some t =>
          match env.applyTemplate t data with
          | .error e => .error ("failed to merge secret with template field: " ++ e)
          | .ok merged => .ok merged

/-- Observable outcome of one externalSecretSyncer.sync call: the
status written by the deferred Status().Update, the secret data
committed by CreateOrUpdate (none when the mutate function failed, so
no partial payload is written), and the returned error. -/
structure SyncResult where
  written : ESStatus
  committed : Option (List (String × Bytes))
  err : Option String
deriving DecidableEq

/-- externalSecretSyncer.sync: NextSync is computed before any fetch;
the CreateOrUpdate mutate function runs; on failure the condition
becomes Unavailable with the wrapped message and nothing is committed,
on success it becomes Available; the deferred status update always
writes the resulting status. -/
def sync (env : SyncEnv) (es : ExternalSecret) : SyncResult :=
  let ns := computeNextSync env.now es
  match syncBody env es with
  | .error e =>
    let msg := "cannot create/update ExternalSecret data from store: " ++ e
    { written := { nextSync := ns, condition := some (.unavailable msg) }
      committed := none
      err := some msg }
  | .ok data =>
    { written := { nextSync := ns, condition := some .available }
      committed := some data
      err := none }

/-! ## Scheduler: pkg/internal/scheduler -/

/-- scheduler/job.go Schedule: the Immediate flag and the fixed
interval used by Next (nanoseconds). -/
structure Schedule where
  immediate : Bool
  renewAfter : Nat
deriving DecidableEq

/-- scheduler/job.go Schedule.Next: the first call with Immediate set
returns the given time itself and clears the flag; afterwards each call
returns the given time plus the interval. The Go method mutates its
receiver, so the embedding returns the updated schedule. -/
def Schedule.next (s : Schedule) (t : Nat) : Schedule × Nat :=
  if s.immediate then ({ s with immediate := false }, t)
  else (s, t + s.renewAfter)

/-- Successive activation times of a schedule driven by cron: firing
n+1 applies Next to the state and time of firing n. -/
def Schedule.fire (s : Schedule) (t : Nat) : Nat → Schedule × Nat
  | 0 => Schedule.next s t
  | n + 1 =>
    let q := Schedule.fire s t n
    Schedule.next q.1 q.2

/-- One entry of the robfig cron runtime: its EntryID, the job name
(the namespace/name identity string) and its schedule state. -/
structure CronEntry where
  entryId : Nat
  jobName : String
  sched : Schedule
deriving DecidableEq

/-- The robfig cron runtime state: active entries plus the counter
producing fresh EntryIDs. -/
structure Cron where
  entries : List CronEntry
  nextId : Nat
deriving DecidableEq

/-- cron.Schedule: append a new active entry under a fresh EntryID and
return that id; existing entries are untouched. -/
def Cron.schedule (c : Cron) (s : Schedule) (jobName : String) : Cron × Nat :=
  ({ entries := c.entries ++ [{ entryId := c.nextId, jobName := jobName, sched := s }]
     nextId := c.nextId + 1 }, c.nextId)

/-- cron.Remove: drop the entry with the given EntryID, if any. -/
def Cron.remove (c : Cron) (eid : Nat) : Cron :=
  { c with entries := c.entries.filter (fun e => e.entryId ≠ eid) }

/-- scheduler.Scheduler state: the cron runtime and the identity to
EntryID schedule map guarded by its mutex. -/
structure Scheduler where
  cron : Cron
  scheduleMap : List (String × Nat)
deriving DecidableEq

/-- scheduler identity: the namespace/name key of the schedule map. -/
def identityKey (nspace name : String) : String := nspace ++ "/" ++ name

/-- Scheduler.Add: schedule a fresh cron entry with Immediate set and
the RefreshInterval of the ExternalSecret (the Go code dereferences the
interval pointer, so callers pass a non-nil interval), then assign its
EntryID into the schedule map under the identity, replacing only the
map binding. No cron.Remove is issued for a previously mapped entry. -/
def Scheduler.add (s : Scheduler) (es : ExternalSecret) : Scheduler :=
  let id := identityKey es.nspace es.name
  let p := s.cron.schedule { immediate := true,
                             renewAfter := es.spec.refreshInterval.getD 0 } id
  { cron := p.1, scheduleMap := insertA s.scheduleMap id p.2 }

/-- Scheduler.Remove: look the identity up in the schedule map and, when
present, remove that EntryID from cron; the map binding itself stays. -/
def Scheduler.removeId (s : Scheduler) (nspace name : String) : Scheduler :=
  match lookupA s.scheduleMap (identityKey nspace name) with
  | some eid => { s with cron := s.cron.remove eid }
  | none => s

/-- Number of active cron entries whose job carries the identity. -/
def activeEntriesFor (s : Scheduler) (id : String) : Nat :=
  (s.cron.entries.filter (fun e => e.jobName = id)).length

/-- A scheduler as built by scheduler.New: no entries, first EntryID 1. -/
def emptyScheduler : Scheduler :=
  { cron := { entries := [], nextId := 1 }, scheduleMap := [] }

/-- Observable outcome of one Reconcile call for an ExternalSecret that
was found: the scheduler state after the conditional Add, the sync
outcome when sync ran (none when skipSync short-circuited, so neither
store lookup nor any backend call happened), and whether a requeue was
requested. -/
structure ReconcileOutcome where
  schedState : Scheduler
  syncResult : Option SyncResult
  requeue : Bool

/-- ExternalSecretReconciler.Reconcile after a successful Get: add to
the schedule when shouldSchedule, return early when skipSync, otherwise
run sync and requeue on error. -/
def reconcileFound (env : SyncEnv) (st : Scheduler) (es : ExternalSecret) :
    ReconcileOutcome :=
  let st2 := if shouldSchedule es then st.add es else st
  if skipSync es then
    { schedState := st2, syncResult := none, requeue := false }
  else
    let r := sync env es
    { schedState := st2, syncResult := some r, requeue := r.err.isSome }

/-! ## Store configuration and factory dispatch: store/base Default.New -/

/-- smmeta.SecretKeySelector: name of a Secret plus an optional key
(modelled from the CRD schema; the meta package is not under src/). -/
structure SecretKeySelector where
  name : String
  key : Option String := none

/-- VaultAppRole auth block of secretstore_types.go. -/
structure VaultAppRole where
  path : String
  roleId : String
  secretRef : SecretKeySelector

/-- VaultKubernetesAuth block of secretstore_types.go. -/
structure VaultKubernetesAuth where
  mountPath : String
  secretRef : SecretKeySelector
  role : String

/-- VaultAuth of secretstore_types.go: one of tokenSecretRef, appRole
or kubernetes may be specified. -/
structure VaultAuth where
  tokenSecretRef : Option SecretKeySelector := none
  appRole : Option VaultAppRole := none
  kubernetes : Option VaultKubernetesAuth := none

/-- VaultStore of secretstore_types.go. -/
structure VaultStore where
  auth : VaultAuth
  server : String
  path : String
  version : Option String := none
  vaultNamespace : Option String := none
  caBundle : Option Bytes := none

/-- SecretRef of secretstore_types.go: a named Secret in a namespace. -/
structure SecretRef where
  name : String
  refNamespace : String

/-- CredentialsRef of secretstore_types.go. -/
structure CredentialsRef where
  secretRef : Option SecretRef := none

/-- AWSSecretManagerStore of secretstore_types.go. -/
structure AWSSecretManagerStore where
  region : String := ""
  role : String := ""
  secret : String := ""
  credentials : CredentialsRef := {}

/-- AWSParameterStoreStore of secretstore_types.go. -/
structure AWSParameterStoreStore where
  region : String := ""
  role : String := ""
  parameter : String := ""
  credentials : CredentialsRef := {}

/-- SecretStoreSpec of secretstore_types.go: three optional backend
variants, declared with MinProperties=1 and MaxProperties=1. -/
structure SecretStoreSpec where
  vault : Option VaultStore := none
  awsSecretManager : Option AWSSecretManagerStore := none
  awsParameterStore : Option AWSParameterStoreStore := none

/-- GenericStore as seen by Default.New: GetName and GetSpec. -/
structure GenericStore where
  name : String
  spec : SecretStoreSpec

/-- Result of Default.New tagged with the backend whose constructor
produced the client. -/
inductive StoreClient where
  | vault : Client → StoreClient
  | secretsManager : Client → StoreClient
  | parameterStore : Client → StoreClient

/-- The backend client constructors called by Default.New
(vault.New, aws.NewSecretsManager, aws.NewSecureSystemsManager), whose
own session and credential handling is injected, as the tests do. -/
structure FactoryEnv where
  newVault : VaultStore → Except String Client
  newSecretsManager : AWSSecretManagerStore → Except String Client
  newParameterStore : AWSParameterStoreStore → Except String Client

/-- store/base Default.New: check the Vault variant first, then
AWSSecretManager, then AWSParameterStore, constructing the client of
the first populated variant; when none is populated, fail with an error
naming the store. -/
def defaultNew (env : FactoryEnv) (store : GenericStore) : Except String StoreClient :=
  match store.spec.vault with
  | some v =>
    match env.newVault v with
    | .error e => .error ("unable to setup Vault client: " ++ e)
    | .ok c => .ok (.vault c)
  | none =>
    match store.spec.awsSecretManager with
    | some sm =>
      match env.newSecretsManager sm with
      | .error e => .error ("unable to setup SecretsManager client: " ++ e)
      | .ok c => .ok (.secretsManager c)
    | none =>
      match store.spec.awsParameterStore with
      | some ps =>
        match env.newParameterStore ps with
        | .error e => .error ("unable to setup SecureSystemsManager client: " ++ e)
        | .ok c => .ok (.parameterStore c)
      | none =>
        .error ("SecretStore " ++ store.name ++ " does not have a valid client")

/-! ## AWS backend clients: store/aws

The AWS SDK calls (GetSecretValue, GetParameter) and the stdlib
json.Unmarshal into a flat map[string]string are external collaborators
and appear as function parameters, the same way the tests inject a
mocked SSMAPI. `unmarshal` returns none exactly when its input is not a
flat JSON object of strings. -/

/-- SecretsManagerStore.GetSecret: fetch the secret string by path;
with a property set, unmarshal the fetched value as a flat JSON object
and return the value under the property, failing on bad JSON or a
missing property; without a property, return the whole raw value. -/
def smGetSecret (api : String → Except String Bytes)
    (unmarshal : Bytes → Option (List (String × Bytes)))
    (ref : RemoteRef) : Except String Bytes :=
  match api ref.path with
  | .error _ => .error ("could not read secret " ++ ref.path ++ " from AWS SecretsManager")
  | .ok s =>
    match ref.property with
    | some p =>
      match unmarshal s with
      | none =>
        .error ("could not read property " ++ p ++ " from secret " ++ ref.path ++
                " from AWS SecretsManager")
      | some m =>
        match lookupA m p with
        | none =>
          .error ("property " ++ p ++ " in secret " ++ ref.path ++
                  " from AWS SecretsManager does not exist")
        | some v => .ok v
    | none => .ok s

/-- SecretsManagerStore.GetSecretMap: fetch the secret string by path
and unmarshal it as a flat JSON object, failing on bad JSON. -/
def smGetSecretMap (api : String → Except String Bytes)
    (unmarshal : Bytes → Option (List (String × Bytes)))
    (ref : RemoteRef) : Except String (List (String × Bytes)) :=
  match api ref.path with
  | .error _ => .error ("could not read secret " ++ ref.path ++ " from AWS SecretsManager")
  | .ok s =>
    match unmarshal s with
    | none =>
      .error ("could not unmarshal json from secret " ++ ref.path ++
              " from AWS SecretsManager")
    | some m => .ok m

/-- SecureSystemsManagerStore.GetSecret: identical control flow over
GetParameter, with the Parameter Store read error message. -/
def ssmGetSecret (api : String → Except String Bytes)
    (unmarshal : Bytes → Option (List (String × Bytes)))
    (ref : RemoteRef) : Except String Bytes :=
  match api ref.path with
  | .error _ => .error ("could not read parameter " ++ ref.path ++ " from AWS Parameter Store")
  | .ok s =>
    match ref.property with
    | some p =>
      match unmarshal s with
      | none =>
        .error ("could not read property " ++ p ++ " from secret " ++ ref.path ++
                " from AWS SecretsManager")
      | some m =>
        match lookupA m p with
        | none =>
          .error ("property " ++ p ++ " in secret " ++ ref.path ++
                  " from AWS SecretsManager does not exist")
        | some v => .ok v
    | none => .ok s

/-- SecureSystemsManagerStore.GetSecretMap: identical control flow over
GetParameter. -/
def ssmGetSecretMap (api : String → Except String Bytes)
    (unmarshal : Bytes → Option (List (String × Bytes)))
    (ref : RemoteRef) : Except String (List (String × Bytes)) :=
  match api ref.path with
  | .error _ => .error ("could not read secret " ++ ref.path ++ " from AWS SecretsManager")
  | .ok s =>
    match unmarshal s with
    | none =>
      .error ("could not unmarshal json from secret " ++ ref.path ++
              " from AWS SecretsManager")
    | some m => .ok m

/-- An Except value is an error. -/
def isErr {α : Type} : Except String α → Bool
  | .error _ => true
  | .ok _ => false

/-- All values reachable by lookup in an association map satisfy P. -/
def allVals (P : Bytes → Prop) (l : List (String × Bytes)) : Prop :=
  ∀ k v, lookupA l k = some v → P v

/-- A client returns byte-range values only, as Go byte slices do. -/
def clientOk (c : Client) : Prop :=
  (∀ r v, c.getSecret r = .ok v → bytesOk v) ∧
  (∀ r m, c.getSecretMap r = .ok m → ∀ kv ∈ m, bytesOk kv.2)

/-! ## Concrete fixtures used by witnesses and counterexamples,
mirroring the merge precedence example of the spec: dataFrom yields
a map with keys a and b, data yields a single value under key b. -/

/-- A concrete client: key b fetches the single value 3; the dataFrom
path fetches the map a to 1, b to 2. -/
def cW : Client :=
  { getSecret := fun r => if r.path = "b" then .ok [3] else .error "nope"
    getSecretMap := fun r =>
      if r.path = "from" then .ok [("a", [1]), ("b", [2])] else .error "nope" }

/-- A concrete ExternalSecret with refreshInterval zero, one dataFrom
entry and one data entry whose key collides with the dataFrom map. -/
def esW : ExternalSecret :=
  { nspace := "default", name := "db"
    spec := { refreshInterval := some 0
              data := [{ secretKey := "b", remoteRef := { path := "b" } }]
              dataFrom := [{ path := "from" }] } }

/-- esW with nextSync already recorded. -/
def esWskip : ExternalSecret := { esW with status := { nextSync := some 7 } }

/-- esW with a two-minute refresh interval. -/
def esW2 : ExternalSecret :=
  { esW with spec := { esW.spec with refreshInterval := some (120 * nanosPerSecond) } }

/-- A sync environment whose collaborators all succeed. -/
def envW : SyncEnv :=
  { now := 1000, getStore := .ok (), newClient := .ok cW
    applyTemplate := fun _ m => .ok m }

/-- A client whose every fetch fails. -/
def cBad : Client :=
  { getSecret := fun _ => .error "boom", getSecretMap := fun _ => .error "boom" }

/-- A sync environment that resolves the store but whose backend client
fails every fetch. -/
def envBad : SyncEnv :=
  { now := 1000, getStore := .ok (), newClient := .ok cBad
    applyTemplate := fun _ m => .ok m }

/-- A concrete AWS fetch returning bytes for path p1. -/
def api8 : String → Except String Bytes :=
  fun p => if p = "p1" then .ok [1] else .error "nope"

/-- A concrete flat JSON unmarshal: the fetched bytes decode to a map
binding hello. -/
def unm8 : Bytes → Option (List (String × Bytes)) :=
  fun s => if s = [1] then some [("hello", [2])] else none

/-- A trivial backend client for factory dispatch fixtures. -/
def cTriv : Client :=
  { getSecret := fun _ => .ok [], getSecretMap := fun _ => .ok [] }

/-- A factory whose three constructors all succeed. -/
def envF : FactoryEnv :=
  { newVault := fun _ => .ok cTriv
    newSecretsManager := fun _ => .ok cTriv
    newParameterStore := fun _ => .ok cTriv }

/-- A concrete Vault variant configuration. -/
def vaultW : VaultStore := { auth := {}, server := "srv", path := "secret" }

/-- A store whose spec populates two variants at once, violating the
declared MaxProperties=1 invariant. -/
def storeBoth : GenericStore :=
  { name := "s1", spec := { vault := some vaultW, awsSecretManager := some {} } }

/-- A store with no populated variant. -/
def storeNone : GenericStore := { name := "s1", spec := {} }

/-- A store populating only the AWSSecretManager variant. -/
def storeSM : GenericStore := { name := "s2", spec := { awsSecretManager := some {} } }

/-! ## Association map lemmas -/

theorem lookupA_insertA_self {α : Type} (l : List (String × α)) (k : String) (v : α) :
    lookupA (insertA l k v) k = some v := by
  induction l with
  | nil => simp [insertA, lookupA]
  | cons hd tl ih =>
    obtain ⟨k0, v0⟩ := hd
    by_cases h : k0 = k
    · simp [insertA, lookupA, h]
    · simp [insertA, lookupA, h, ih]

theorem lookupA_insertA_ne {α : Type} (l : List (String × α)) (k k0 : String) (v : α)
    (h : k0 ≠ k) : lookupA (insertA l k0 v) k = lookupA l k := by
  induction l with
  | nil => simp [insertA, lookupA, h]
  | cons hd tl ih =>
    obtain ⟨k1, v1⟩ := hd
    by_cases h1 : k1 = k0
    · subst h1; simp [insertA, lookupA, h]
    · simp [insertA, lookupA, h1, ih]

theorem lookupA_mapValuesA {α β : Type} (f : α → β) (l : List (String × α)) (k : String) :
    lookupA (mapValuesA f l) k = (lookupA l k).map f := by
  induction l with
  | nil => simp [mapValuesA, lookupA]
  | cons hd tl ih =>
    obtain ⟨k0, v0⟩ := hd
    by_cases h : k0 = k
    · simp [mapValuesA, lookupA, h]
    · simp [mapValuesA, lookupA, h, ih]

/-! ## Base64 lemmas -/

theorem decChar_encChar_fin : ∀ s : Fin 64, decChar (encChar s.val) = some s.val := by
  decide

theorem encChar_ne_pad_fin : ∀ s : Fin 64, encChar s.val ≠ 61 := by
  decide

theorem decChar_encChar {s : Nat} (h : s < 64) : decChar (encChar s) = some s :=
  decChar_encChar_fin ⟨s, h⟩

theorem encChar_ne_pad {s : Nat} (h : s < 64) : encChar s ≠ 61 :=
  encChar_ne_pad_fin ⟨s, h⟩

theorem b64_roundtrip : ∀ bs : Bytes, bytesOk bs → b64decode (b64encode bs) = some bs := by
  intro bs
  induction bs using b64encode.induct with
  | case1 =>
    intro _
    simp [b64encode, b64decode]
  | case2 b0 =>
    intro h
    have hb0 : b0 < 256 := h b0 (by simp)
    have e0 := decChar_encChar (s := b0 / 4) (by omega)
    have e1 := decChar_encChar (s := b0 % 4 * 16) (by omega)
    simp [b64encode, b64decode, e0, e1]
    omega
  | case3 b0 b1 =>
    intro h
    have hb0 : b0 < 256 := h b0 (by simp)
    have hb1 : b1 < 256 := h b1 (by simp)
    have e0 := decChar_encChar (s := b0 / 4) (by omega)
    have e1 := decChar_encChar (s := b0 % 4 * 16 + b1 / 16) (by omega)
    have e2 := decChar_encChar (s := b1 % 16 * 4) (by omega)
    have n2 := encChar_ne_pad (s := b1 % 16 * 4) (by omega)
    simp [b64encode, b64decode, e0, e1, e2, if_neg n2]
    omega
  | case4 b0 b1 b2 rest ih =>
    intro h
    have hb0 : b0 < 256 := h b0 (by simp)
    have hb1 : b1 < 256 := h b1 (by simp)
    have hb2 : b2 < 256 := h b2 (by simp)
    have hrest : bytesOk rest := by
      intro b hb
      exact h b (by simp [hb])
    have e0 := decChar_encChar (s := b0 / 4) (by omega)
    have e1 := decChar_encChar (s := b0 % 4 * 16 + b1 / 16) (by omega)
    have e2 := decChar_encChar (s := b1 % 16 * 4 + b2 / 64) (by omega)
    have e3 := decChar_encChar (s := b2 % 64) (by omega)
    have n2 := encChar_ne_pad (s := b1 % 16 * 4 + b2 / 64) (by omega)
    have n3 := encChar_ne_pad (s := b2 % 64) (by omega)
    simp [b64encode, b64decode, e0, e1, e2, e3, if_neg n2, if_neg n3, ih hrest]
    omega

/-! ## Helper lemmas on the merge engine -/

theorem allVals_insertA {P : Bytes → Prop} {l : List (String × Bytes)} {k : String}
    {v : Bytes} (hl : allVals P l) (hv : P v) : allVals P (insertA l k v) := by
  intro k2 v2 h
  by_cases hk : k = k2
  · subst hk
    rw [lookupA_insertA_self] at h
    exact (Option.some_inj.mp h) ▸ hv
  · rw [lookupA_insertA_ne l k2 k v hk] at h
    exact hl k2 v2 h

theorem allVals_mergeMap {P : Bytes → Prop} {src : List (String × Bytes)} :
    ∀ {dst : List (String × Bytes)}, allVals P dst → (∀ kv ∈ src, P kv.2) →
      allVals P (mergeMap dst src) := by
  induction src with
  | nil => intro dst hd _; exact hd
  | cons kv rest ih =>
    intro dst hd hs
    have h1 : allVals P (insertA dst kv.1 kv.2) :=
      allVals_insertA hd (hs kv (by simp))
    have h2 : ∀ x ∈ rest, P x.2 := fun x hx => hs x (by simp [hx])
    exact ih h1 h2

theorem fetchData_append (c : Client) (l1 l2 : List DataEntry) :
    ∀ acc, fetchData c (l1 ++ l2) acc =
      match fetchData c l1 acc with
      | .error e => .error e
      | .ok acc2 => fetchData c l2 acc2 := by
  induction l1 with
  | nil => intro acc; simp [fetchData]
  | cons hd tl ih =>
    intro acc
    simp only [List.cons_append, fetchData]
    cases c.getSecret hd.remoteRef with
    | error e => rfl
    | ok v => exact ih (insertA acc hd.secretKey v)

theorem fetchData_preserve (c : Client) (l : List DataEntry) (k : String)
    (hk : ∀ e ∈ l, e.secretKey ≠ k) :
    ∀ acc m, fetchData c l acc = .ok m → lookupA m k = lookupA acc k := by
  induction l with
  | nil =>
    intro acc m h
    simp [fetchData] at h
    rw [h]
  | cons hd tl ih =>
    intro acc m h
    simp only [fetchData] at h
    cases hfetch : c.getSecret hd.remoteRef with
    | error e => rw [hfetch] at h; exact absurd h (by simp)
    | ok v =>
      rw [hfetch] at h
      have htl : ∀ e ∈ tl, e.secretKey ≠ k := fun e he => hk e (by simp [he])
      have := ih htl (insertA acc hd.secretKey v) m h
      rw [this, lookupA_insertA_ne acc k hd.secretKey v (hk hd (by simp))]

theorem fetchData_err (c : Client) (l : List DataEntry) (e : DataEntry)
    (he : e ∈ l) (hf : isErr (c.getSecret e.remoteRef) = true) :
    ∀ acc, ∃ msg, fetchData c l acc = .error msg := by
  induction l with
  | nil => exact absurd he (by simp)
  | cons hd tl ih =>
    intro acc
    simp only [fetchData]
    cases hfetch : c.getSecret hd.remoteRef with
    | error msg => exact ⟨_, rfl⟩
    | ok v =>
      rcases List.mem_cons.mp he with heq | htl
      · subst heq; rw [hfetch] at hf; simp [isErr] at hf
      · exact ih htl (insertA acc hd.secretKey v)

theorem fetchDataFrom_err (c : Client) (l : List RemoteRef) (r : RemoteRef)
    (hr : r ∈ l) (hf : isErr (c.getSecretMap r) = true) :
    ∀ acc, ∃ msg, fetchDataFrom c l acc = .error msg := by
  induction l with
  | nil => exact absurd hr (by simp)
  | cons hd tl ih =>
    intro acc
    simp only [fetchDataFrom]
    cases hfetch : c.getSecretMap hd with
    | error msg => exact ⟨_, rfl⟩
    | ok m =>
      rcases List.mem_cons.mp hr with heq | htl
      · subst heq; rw [hfetch] at hf; simp [isErr] at hf
      · exact ih htl (mergeMap acc m)

theorem fetchDataFrom_ok_allVals (c : Client) (hc : clientOk c)
    (l : List RemoteRef) :
    ∀ acc m, allVals bytesOk acc → fetchDataFrom c l acc = .ok m →
      allVals bytesOk m := by
  induction l with
  | nil =>
    intro acc m hacc h
    simp [fetchDataFrom] at h
    exact h ▸ hacc
  | cons hd tl ih =>
    intro acc m hacc h
    simp only [fetchDataFrom] at h
    cases hfetch : c.getSecretMap hd with
    | error e => rw [hfetch] at h; exact absurd h (by simp)
    | ok mm =>
      rw [hfetch] at h
      exact ih (mergeMap acc mm) m
        (allVals_mergeMap hacc (hc.2 hd mm hfetch)) h

theorem fetchData_ok_allVals (c : Client) (hc : clientOk c)
    (l : List DataEntry) :
    ∀ acc m, allVals bytesOk acc → fetchData c l acc = .ok m →
      allVals bytesOk m := by
  induction l with
  | nil =>
    intro acc m hacc h
    simp [fetchData] at h
    exact h ▸ hacc
  | cons hd tl ih =>
    intro acc m hacc h
    simp only [fetchData] at h
    cases hfetch : c.getSecret hd.remoteRef with
    | error e => rw [hfetch] at h; exact absurd h (by simp)
    | ok v =>
      rw [hfetch] at h
      exact ih (insertA acc hd.secretKey v) m
        (allVals_insertA hacc (hc.1 hd.remoteRef v hfetch)) h

theorem schedule_fire_fst (s : Schedule) (t : Nat) :
    ∀ n, (Schedule.fire s t n).1 = { immediate := false, renewAfter := s.renewAfter } := by
  intro n
  induction n with
  | zero =>
    simp only [Schedule.fire, Schedule.next]
    by_cases h : s.immediate <;> simp [h]
    cases s with
    | mk imm ra => simp_all
  | succ n ih =>
    simp only [Schedule.fire, ih, Schedule.next]
    simp

theorem activeEntriesFor_add (st : Scheduler) (es : ExternalSecret) :
    activeEntriesFor (st.add es) (identityKey es.nspace es.name) =
      activeEntriesFor st (identityKey es.nspace es.name) + 1 := by
  simp [Scheduler.add, activeEntriesFor, Cron.schedule, List.filter_append]

/-! ## Claim theorems -/

/-- C2: an ExternalSecret with refreshInterval exactly zero and nextSync
already set is skipped entirely: skipSync is true and Reconcile returns
without running sync, so no backend call happens; on a first,
non-skipped cycle with a zero interval, sync records nextSync as the
Unix epoch. -/
theorem C2_zero_interval_sync_once (env : SyncEnv) (st : Scheduler)
    (es : ExternalSecret) (h0 : es.spec.refreshInterval = some 0) :
    (∀ t, es.status.nextSync = some t →
      skipSync es = true ∧ (reconcileFound env st es).syncResult = none) ∧
    (es.status.nextSync = none →
      skipSync es = false ∧
      (reconcileFound env st es).syncResult = some (sync env es) ∧
      (sync env es).written.nextSync = some 0) := by
  constructor
  · intro t ht
    have hs : skipSync es = true := by simp [skipSync, h0, ht]
    exact ⟨hs, by simp [reconcileFound, hs]⟩
  · intro ht
    have hs : skipSync es = false := by simp [skipSync, h0, ht]
    refine ⟨hs, by simp [reconcileFound, hs], ?_⟩
    unfold sync computeNextSync
    cases syncBody env es <;> simp [h0]

/-- C2 witness: concrete zero-interval ExternalSecrets, one with
nextSync recorded (skipped) and one without (synced, epoch written). -/
theorem C2_witness :
    (skipSync esWskip = true ∧
      (reconcileFound envW emptyScheduler esWskip).syncResult = none) ∧
    (skipSync esW = false ∧
      (reconcileFound envW emptyScheduler esW).syncResult = some (sync envW esW) ∧
      (sync envW esW).written.nextSync = some 0) :=
  ⟨(C2_zero_interval_sync_once envW emptyScheduler esWskip rfl).1 7 rfl,
   (C2_zero_interval_sync_once envW emptyScheduler esW rfl).2 rfl⟩

/-- C3: two consecutive Scheduler.Add calls for the same identity leave
two active cron entries for that identity, not at most one: the second
Add overwrites only the scheduleMap binding and never removes the first
cron entry. Evaluates the embedded code at the failing input. -/
theorem C3_double_add_leaves_two_entries :
    activeEntriesFor ((emptyScheduler.add esW2).add esW2)
      (identityKey "default" "db") = 2 := by
  rfl

/-- C4 counterexample: a store spec populating both the Vault and the
AWSSecretManager variants does not make Default.New fail: the Vault
branch is taken and a client is returned. -/
theorem C4_counterexample_two_variants_no_failure :
    isErr (defaultNew envF storeBoth) = false := by
  rfl

/-- C4 amended: Default.New returns the client of the first populated
variant in the fixed order Vault, AWSSecretManager, AWSParameterStore,
wrapping constructor failures; it returns an error naming the store
only when no variant is populated; it does not fail merely because
several variants are populated. -/
theorem C4_first_variant_dispatch (env : FactoryEnv) (store : GenericStore) :
    (store.spec.vault = none → store.spec.awsSecretManager = none →
      store.spec.awsParameterStore = none →
      defaultNew env store =
        .error ("SecretStore " ++ store.name ++ " does not have a valid client")) ∧
    (∀ v c, store.spec.vault = some v → env.newVault v = .ok c →
      defaultNew env store = .ok (.vault c)) ∧
    (∀ sm c, store.spec.vault = none → store.spec.awsSecretManager = some sm →
      env.newSecretsManager sm = .ok c →
      defaultNew env store = .ok (.secretsManager c)) ∧
    (∀ ps c, store.spec.vault = none → store.spec.awsSecretManager = none →
      store.spec.awsParameterStore = some ps → env.newParameterStore ps = .ok c →
      defaultNew env store = .ok (.parameterStore c)) ∧
    (∀ v, store.spec.vault = some v → isErr (env.newVault v) = true →
      isErr (defaultNew env store) = true) := by
  refine ⟨?_, ?_, ?_, ?_, ?_⟩
  · intro h1 h2 h3
    simp [defaultNew, h1, h2, h3]
  · intro v c hv hc
    simp [defaultNew, hv, hc]
  · intro sm c h1 hsm hc
    simp [defaultNew, h1, hsm, hc]
  · intro ps c h1 h2 hps hc
    simp [defaultNew, h1, h2, hps, hc]
  · intro v hv he
    cases hnv : env.newVault v with
    | error e => simp [defaultNew, hv, hnv, isErr]
    | ok c => rw [hnv] at he; simp [isErr] at he

/-- C4 witness: zero populated variants yields the error naming the
store; a store populating only the AWSSecretManager variant yields the
SecretsManager client. -/
theorem C4_witness :
    defaultNew envF storeNone =
      .error ("SecretStore " ++ storeNone.name ++ " does not have a valid client") ∧
    defaultNew envF storeSM = .ok (.secretsManager cTriv) :=
  ⟨(C4_first_variant_dispatch envF storeNone).1 rfl rfl rfl,
   (C4_first_variant_dispatch envF storeSM).2.2.1 {} cTriv rfl rfl rfl⟩

/-- C6: a schedule registered with Immediate set fires at the
registration instant itself, and each later firing happens exactly
renewAfter after the previous one; Scheduler.Add registers exactly such
a schedule carrying the RefreshInterval of the ExternalSecret. -/
theorem C6_immediate_then_every_interval (s : Schedule) (t : Nat)
    (him : s.immediate = true) :
    (Schedule.fire s t 0).2 = t ∧
    (∀ n, (Schedule.fire s t (n + 1)).2 = (Schedule.fire s t n).2 + s.renewAfter) ∧
    (∀ (st : Scheduler) (es : ExternalSecret) (i : Nat),
      es.spec.refreshInterval = some i →
      ∃ en ∈ (st.add es).cron.entries,
        en.jobName = identityKey es.nspace es.name ∧
        en.sched = { immediate := true, renewAfter := i }) := by
  refine ⟨?_, ?_, ?_⟩
  · simp [Schedule.fire, Schedule.next, him]
  · intro n
    simp only [Schedule.fire]
    rw [schedule_fire_fst]
    simp [Schedule.next]
  · intro st es i hi
    refine ⟨{ entryId := st.cron.nextId, jobName := identityKey es.nspace es.name,
              sched := { immediate := true, renewAfter := i } }, ?_, rfl, rfl⟩
    simp [Scheduler.add, Cron.schedule, hi]

/-- C6 witness: a concrete immediate schedule with a 5 unit interval
fires at 100, then at 105, 110, and so on. -/
theorem C6_witness :
    (Schedule.fire { immediate := true, renewAfter := 5 } 100 0).2 = 100 ∧
    (∀ n, (Schedule.fire { immediate := true, renewAfter := 5 } 100 (n + 1)).2 =
      (Schedule.fire { immediate := true, renewAfter := 5 } 100 n).2 + 5) ∧
    (∀ (st : Scheduler) (es : ExternalSecret) (i : Nat),
      es.spec.refreshInterval = some i →
      ∃ en ∈ (st.add es).cron.entries,
        en.jobName = identityKey es.nspace es.name ∧
        en.sched = { immediate := true, renewAfter := i }) :=
  C6_immediate_then_every_interval { immediate := true, renewAfter := 5 } 100 rfl

/-- C7: an ExternalSecret is registered with the scheduler exactly when
its refreshInterval is non-nil and at least 60 seconds; below the
threshold or with no interval the scheduler state is untouched; every
reconcile of a found object still runs one synchronous sync unless
skipSync applies. -/
theorem C7_scheduling_policy (env : SyncEnv) (st : Scheduler) (es : ExternalSecret) :
    (shouldSchedule es = true ↔
      ∃ i, es.spec.refreshInterval = some i ∧ 60 * nanosPerSecond ≤ i) ∧
    (shouldSchedule es = false → (reconcileFound env st es).schedState = st) ∧
    (shouldSchedule es = true →
      activeEntriesFor (reconcileFound env st es).schedState
          (identityKey es.nspace es.name) =
        activeEntriesFor st (identityKey es.nspace es.name) + 1) ∧
    ((reconcileFound env st es).syncResult =
      if skipSync es then none else some (sync env es)) := by
  refine ⟨?_, ?_, ?_, ?_⟩
  · unfold shouldSchedule
    cases h : es.spec.refreshInterval with
    | none => simp
    | some i => simp [h]
  · intro h
    unfold reconcileFound
    rw [h]
    by_cases hs : skipSync es <;> simp [hs]
  · intro h
    unfold reconcileFound
    rw [h]
    by_cases hs : skipSync es <;>
      simp [hs, activeEntriesFor_add]
  · unfold reconcileFound
    by_cases hs : skipSync es <;> simp [hs]

/-- C7 witness: the two-minute interval ExternalSecret is added to the
schedule exactly once by a reconcile. -/
theorem C7_witness :
    shouldSchedule esW2 = true ∧
    activeEntriesFor (reconcileFound envW emptyScheduler esW2).schedState
        (identityKey esW2.nspace esW2.name) =
      activeEntriesFor emptyScheduler (identityKey esW2.nspace esW2.name) + 1 :=
  ⟨by rfl, (C7_scheduling_policy envW emptyScheduler esW2).2.2.1 (by rfl)⟩

/-- C10: even when a sync cycle fails, the deferred status update still
writes the status: nextSync is computed from refreshInterval before any
fetch (epoch for zero, now plus interval otherwise, untouched for nil)
and the written condition is Available on success and Unavailable with
the error message on failure. -/
theorem C10_status_written_on_failure (env : SyncEnv) (es : ExternalSecret) :
    (sync env es).written.nextSync =
      (match es.spec.refreshInterval with
       | some i => some (if i = 0 then 0 else env.now + i)
       | none => es.status.nextSync) ∧
    (sync env es).written.condition =
      (match (sync env es).err with
       | some msg => some (.unavailable msg)
       | none => some .available) := by
  unfold sync computeNextSync
  cases syncBody env es <;> simp

/-- C1: in the merged payload built by getSecret, data entries take
final precedence over dataFrom-derived keys: when getSecret succeeds,
the key of a data entry not followed by a later entry with the same key
is bound to the base64 encoding of the value fetched for that data
entry, whatever any dataFrom map said for that key. -/
theorem C1_data_overrides_dataFrom (c : Client) (es : ExternalSecret)
    (m : List (String × Bytes)) (d1 d2 : List DataEntry) (e : DataEntry) (v : Bytes)
    (hdata : es.spec.data = d1 ++ e :: d2)
    (hlast : ∀ x ∈ d2, x.secretKey ≠ e.secretKey)
    (hok : getSecret c es = .ok m)
    (hv : c.getSecret e.remoteRef = .ok v) :
    lookupA m e.secretKey = some (b64encode v) := by
  unfold getSecret at hok
  cases hraw : getSecretRaw c es with
  | error er => rw [hraw] at hok; simp at hok
  | ok raw =>
    rw [hraw] at hok
    replace hok : mapValuesA b64encode raw = m := by simpa using hok
    unfold getSecretRaw at hraw
    cases hdf : fetchDataFrom c es.spec.dataFrom [] with
    | error e2 => rw [hdf] at hraw; simp at hraw
    | ok acc =>
      rw [hdf] at hraw
      replace hraw : fetchData c es.spec.data acc = .ok raw := by simpa using hraw
      rw [hdata, fetchData_append] at hraw
      cases h1 : fetchData c d1 acc with
      | error e1 => rw [h1] at hraw; simp at hraw
      | ok acc1 =>
        rw [h1] at hraw
        replace hraw : fetchData c (e :: d2) acc1 = .ok raw := by simpa using hraw
        simp only [fetchData, hv] at hraw
        have hpres := fetchData_preserve c d2 e.secretKey hlast
          (insertA acc1 e.secretKey v) raw hraw
        rw [lookupA_insertA_self] at hpres
        rw [← hok, lookupA_mapValuesA, hpres]
        rfl

/-- C1 witness: dataFrom yields a map binding a to 1 and b to 2, data
binds b to 3; the merged payload binds b to the encoding of 3. -/
theorem C1_witness :
    getSecret cW esW = .ok [("a", b64encode [1]), ("b", b64encode [3])] ∧
    lookupA [("a", b64encode [1]), ("b", b64encode [3])] "b" = some (b64encode [3]) :=
  ⟨rfl, C1_data_overrides_dataFrom cW esW
    [("a", b64encode [1]), ("b", b64encode [3])] [] []
    { secretKey := "b", remoteRef := { path := "b" } } [3]
    rfl (by simp) rfl rfl⟩

/-- C5: every value of a successful getSecret payload is the standard
base64 encoding of the corresponding raw accumulator value fetched from
the backend, and base64-decoding it returns exactly those original
bytes. -/
theorem C5_payload_base64_roundtrip (c : Client) (es : ExternalSecret)
    (m : List (String × Bytes)) (hc : clientOk c) (hok : getSecret c es = .ok m) :
    ∃ raw, getSecretRaw c es = .ok raw ∧
      ∀ k v, lookupA m k = some v →
        ∃ orig, lookupA raw k = some orig ∧ v = b64encode orig ∧
          b64decode v = some orig := by
  unfold getSecret at hok
  cases hraw : getSecretRaw c es with
  | error er => rw [hraw] at hok; simp at hok
  | ok raw =>
    rw [hraw] at hok
    replace hok : mapValuesA b64encode raw = m := by simpa using hok
    have hall : allVals bytesOk raw := by
      unfold getSecretRaw at hraw
      cases hdf : fetchDataFrom c es.spec.dataFrom [] with
      | error e2 => rw [hdf] at hraw; simp at hraw
      | ok acc =>
        rw [hdf] at hraw
        have hacc : allVals bytesOk acc :=
          fetchDataFrom_ok_allVals c hc es.spec.dataFrom [] acc
            (by intro k v h; simp [lookupA] at h) hdf
        exact fetchData_ok_allVals c hc es.spec.data acc raw hacc
          (by simpa using hraw)
    refine ⟨raw, by simp [hraw], ?_⟩
    intro k v hkv
    rw [← hok, lookupA_mapValuesA] at hkv
    cases hlk : lookupA raw k with
    | none => rw [hlk] at hkv; simp at hkv
    | some orig =>
      rw [hlk] at hkv
      simp only [Option.map_some'] at hkv
      have hvv : v = b64encode orig := (Option.some_inj.mp hkv).symm
      refine ⟨orig, rfl, hvv, ?_⟩
      rw [hvv]
      exact b64_roundtrip orig (hall k orig hlk)

/-- C5 witness: the concrete merged payload of cW and esW round-trips
through base64 back to the fetched bytes. -/
theorem C5_witness :
    ∃ raw, getSecretRaw cW esW = .ok raw ∧
      ∀ k v, lookupA [("a", b64encode [1]), ("b", b64encode [3])] k = some v →
        ∃ orig, lookupA raw k = some orig ∧ v = b64encode orig ∧
          b64decode v = some orig :=
  C5_payload_base64_roundtrip cW esW [("a", b64encode [1]), ("b", b64encode [3])]
    (by
      constructor
      · intro r v h
        by_cases hp : r.path = "b"
        · simp [cW, hp] at h
          subst h
          intro b hb
          simp at hb
          omega
        · simp [cW, hp] at h
      · intro r mm h
        by_cases hp : r.path = "from"
        · simp [cW, hp] at h
          subst h
          intro kv hkv b hb
          simp at hkv
          rcases hkv with rfl | rfl <;> simp at hb <;> omega
        · simp [cW, hp] at h)
    rfl

/-- C8: for both AWS backends, GetSecret with a property set parses the
fetched value as a flat JSON object and returns the value under that
property; it errors when the fetched value does not unmarshal to a flat
JSON object or when the property is absent; without a property it
returns the whole raw value. -/
theorem C8_aws_property_semantics
    (api : String → Except String Bytes)
    (unmarshal : Bytes → Option (List (String × Bytes)))
    (ref : RemoteRef) (fetched : Bytes)
    (hapi : api ref.path = .ok fetched) :
    (ref.property = none →
      smGetSecret api unmarshal ref = .ok fetched ∧
      ssmGetSecret api unmarshal ref = .ok fetched) ∧
    (∀ p, ref.property = some p → unmarshal fetched = none →
      isErr (smGetSecret api unmarshal ref) = true ∧
      isErr (ssmGetSecret api unmarshal ref) = true) ∧
    (∀ p mm, ref.property = some p → unmarshal fetched = some mm →
      lookupA mm p = none →
      isErr (smGetSecret api unmarshal ref) = true ∧
      isErr (ssmGetSecret api unmarshal ref) = true) ∧
    (∀ p mm v, ref.property = some p → unmarshal fetched = some mm →
      lookupA mm p = some v →
      smGetSecret api unmarshal ref = .ok v ∧
      ssmGetSecret api unmarshal ref = .ok v) := by
  refine ⟨?_, ?_, ?_, ?_⟩
  · intro hp
    constructor <;> simp [smGetSecret, ssmGetSecret, hapi, hp]
  · intro p hp hu
    constructor <;> simp [smGetSecret, ssmGetSecret, hapi, hp, hu, isErr]
  · intro p mm hp hu hl
    constructor <;> simp [smGetSecret, ssmGetSecret, hapi, hp, hu, hl, isErr]
  · intro p mm v hp hu hl
    constructor <;> simp [smGetSecret, ssmGetSecret, hapi, hp, hu, hl]

/-- C8 witness: fetching property hello out of the concrete flat JSON
value returns the bound bytes for both backends. -/
theorem C8_witness :
    api8 "p1" = .ok [1] ∧
    smGetSecret api8 unm8 { path := "p1", property := some "hello" } = .ok [2] ∧
    ssmGetSecret api8 unm8 { path := "p1", property := some "hello" } = .ok [2] :=
  ⟨rfl,
   (C8_aws_property_semantics api8 unm8
      { path := "p1", property := some "hello" } [1] rfl).2.2.2
     "hello" [("hello", [2])] [2] rfl rfl rfl⟩

/-- C9: any backend fetch failure aborts the whole merge: when any
GetSecretMap call for a dataFrom entry or any GetSecret call for a data
entry fails, getSecret returns an error, sync commits nothing to the
target secret, and the written status condition is Unavailable carrying
the returned error. -/
theorem C9_fetch_failure_aborts (env : SyncEnv) (c : Client) (es : ExternalSecret)
    (hstore : env.getStore = .ok ()) (hclient : env.newClient = .ok c)
    (hfail : (∃ r ∈ es.spec.dataFrom, isErr (c.getSecretMap r) = true) ∨
             (∃ en ∈ es.spec.data, isErr (c.getSecret en.remoteRef) = true)) :
    (∃ msg, getSecret c es = .error msg) ∧
    (sync env es).committed = none ∧
    (∃ msg, (sync env es).err = some msg ∧
      (sync env es).written.condition = some (.unavailable msg)) := by
  have hget : ∃ msg, getSecret c es = .error msg := by
    rcases hfail with ⟨r, hr, hf⟩ | ⟨en, hen, hf⟩
    · obtain ⟨msg, hmsg⟩ := fetchDataFrom_err c es.spec.dataFrom r hr hf []
      exact ⟨msg, by simp [getSecret, getSecretRaw, hmsg]⟩
    · cases hdf : fetchDataFrom c es.spec.dataFrom [] with
      | error e2 => exact ⟨e2, by simp [getSecret, getSecretRaw, hdf]⟩
      | ok acc =>
        obtain ⟨msg, hmsg⟩ := fetchData_err c es.spec.data en hen hf acc
        exact ⟨msg, by simp [getSecret, getSecretRaw, hdf, hmsg]⟩
  obtain ⟨gmsg, hg⟩ := hget
  have hbody : syncBody env es =
      .error ("cannot get ExternalSecret data from store: " ++ gmsg) := by
    simp [syncBody, hstore, hclient, hg]
  refine ⟨⟨gmsg, hg⟩, ?_, ?_⟩
  · simp [sync, hbody]
  · exact ⟨"cannot create/update ExternalSecret data from store: " ++
      ("cannot get ExternalSecret data from store: " ++ gmsg),
      by simp [sync, hbody], by simp [sync, hbody]⟩

/-- C9 witness: with a client whose fetches all fail, the concrete
ExternalSecret merge errors, nothing is committed and the condition is
Unavailable. -/
theorem C9_witness :
    (∃ msg, getSecret cBad esW = .error msg) ∧
    (sync envBad esW).committed = none ∧
    (∃ msg, (sync envBad esW).err = some msg ∧
      (sync envBad esW).written.condition = some (.unavailable msg)) :=
  C9_fetch_failure_aborts envBad cBad esW rfl rfl
    (.inl ⟨{ path := "from" }, by simp [esW], rfl⟩)

end SecretManager
